import Mathlib

/-!
Verification development for the mediatk repository: a shallow embedding of
the config resolver (src/config.py), the directory scanner and compliance
checker (src/scanner.py), the transcode parameter builder (src/processor.py)
and the media transfer routine (src/transfer.py), with theorems about them.

Filesystem and subprocess interaction is made explicit: a directory walk is
passed in as the list of (root, files) pairs `os.walk` would yield, and a
successful `ffmpeg.probe` call is passed in as its parsed JSON payload.
-/

namespace Mediatk

/-! ### Python path and string helpers -/

/-- Split a character list at every occurrence of `c` (the semantics of
Python `str.split` with a one-character separator). -/
def splitOnChar (c : Char) : List Char → List (List Char)
  | [] => [[]]
  | ch :: rest =>
    let r := splitOnChar c rest
    if ch = c then [] :: r
    else
      match r with
      | [] => [[ch]]
      | g :: gs => (ch :: g) :: gs

/-- Join character lists with the separator `c` between them. -/
def joinChar (c : Char) : List (List Char) → List Char
  | [] => []
  | [g] => g
  | g :: gs => g ++ c :: joinChar c gs

/-- Python `str.split(sep)` for a one-character separator. -/
def pySplit (s : String) (c : Char) : List String :=
  (splitOnChar c s.toList).map String.mk

/-- The final path component, as Python `pathlib.PurePath.name` computes it
for paths without a trailing slash. -/
def pyBasename (s : String) : String :=
  (pySplit s '/').getLastD ""

/-- Index of the last `.` in a list of characters, if any. -/
def lastDotIdx (cs : List Char) : Option Nat :=
  ((List.range cs.length).filter (fun i => cs.getD i ' ' = '.')).getLast?

/-- Python `pathlib.PurePath.suffix`: the final component's extension
including the dot; empty when the only dot is leading or trailing. -/
def pySuffix (path : String) : String :=
  let cs := (pyBasename path).toList
  match lastDotIdx cs with
  | some i => if 0 < i ∧ i < cs.length - 1 then String.mk (cs.drop i) else ""
  | none => ""

/-- Python `pathlib.PurePath.stem`: the final component minus its suffix. -/
def pyStem (path : String) : String :=
  let name := pyBasename path
  let suf := pySuffix path
  if suf = "" then name else String.mk (name.toList.take (name.toList.length - suf.toList.length))

/-- Python `pathlib.PurePath.parent` rendered as a string. -/
def pyParent (s : String) : String :=
  let parts := (splitOnChar '/' s.toList).dropLast
  if parts = [] then "." else
    let p := String.mk (joinChar '/' parts)
    if p = "" then "/" else p

/-- `str(Path(dir) / name)`: pathlib drops a leading `.` component. -/
def pyJoin (dir name : String) : String :=
  if dir = "." then name else if dir = "/" then "/" ++ name else dir ++ "/" ++ name

/-- Python `str.lower()` (ASCII range; the extension lists compared against
are all ASCII). -/
def pyLower (s : String) : String :=
  String.mk (s.toList.map Char.toLower)

/-- Python `str.endswith(suffix)`. -/
def pyEndsWith (s suffix : String) : Bool :=
  suffix.toList.isSuffixOf s.toList

/-- Python `os.path.splitext` restricted to a bare file name: split at the
last dot, unless every character before that dot is itself a dot. -/
def pySplitext (name : String) : String × String :=
  let cs := name.toList
  match lastDotIdx cs with
  | some i =>
    if (cs.take i).any (fun c => c ≠ '.') then
      (String.mk (cs.take i), String.mk (cs.drop i))
    else (name, "")
  | none => (name, "")

/-! ### Probed media descriptors

One entry of a successful `ffmpeg.probe(...)` payload's `streams` list, with
the keys the repository reads.  Absent JSON keys are `none`. -/

structure MediaStream where
  index : Nat
  codec_type : String
  codec_name : Option String
  tagsLanguage : Option String
  channels : Option Nat
  pix_fmt : Option String
  deriving DecidableEq, Repr

/-- A successful probe: its `streams` list (in declaration order), its
`format.format_name` string, and its `format.duration` when present and
parseable as a float (the numeric value itself is unused by the claims,
so only the parsed seconds are kept). -/
structure Probe where
  streams : List MediaStream
  format_name : String
  formatDuration : Option Float
  deriving Repr

/-! ### Compliance checker (src/scanner.py, get_video_compliance)

The function reads the configuration attributes `video_codec`,
`audio_codec_stereo`, `audio_codec_surround`, `subtitles` and `container`;
they are gathered here into the record of attributes the checker
dereferences.  (The repository's `VidConfig` dataclass, modelled further
below, does not declare the two audio fields — see the theorems on
attribute lookup.) -/

structure CheckCfg where
  video_codec : String
  audio_codec_stereo : String
  audio_codec_surround : String
  subtitles : List String
  container : String
  deriving DecidableEq, Repr

/-- `VIDEO_EXTENSIONS` list at the top of src/scanner.py. -/
def VIDEO_EXTENSIONS : List String :=
  [".mp4", ".avi", ".mkv", ".mov", ".wmv", ".flv", ".webm", ".mpeg", ".mpg"]

/-- `VIDEO_EXTENSIONS_TO_CONTAINER` dict at the top of src/scanner.py. -/
def VIDEO_EXTENSIONS_TO_CONTAINER : List (String × String) :=
  [("mp4", "mpeg-4"), ("avi", "avi"), ("mkv", "matroska"), ("mov", "quickTime"),
   ("wmv", "windows media video"), ("flv", "flash video"), ("webm", "WebM"),
   ("mpeg", "mpeg")]

/-- Python `set.add`: Python sets are unordered; only membership and
cardinality are consumed, so a duplicate-free list in insertion order is an
adequate representation. -/
def pyInsert {α : Type} [DecidableEq α] (x : α) (s : List α) : List α :=
  if x ∈ s then s else s ++ [x]

/-- The `video_codecs`, `audio_codecs` and `subtitle_languages` sets built by
the stream-extraction loop of `get_video_compliance`.  A subtitle stream's
language tag is added only when present and truthy (non-empty). -/
def collectSets (streams : List MediaStream) :
    List (Option String) × List (Option String) × List String :=
  streams.foldl (fun acc s =>
    let (v, a, subs) := acc
    if s.codec_type = "video" then (pyInsert s.codec_name v, a, subs)
    else if s.codec_type = "audio" then (v, pyInsert s.codec_name a, subs)
    else if s.codec_type = "subtitle" then
      match s.tagsLanguage with
      | some l => if l ≠ "" then (v, a, pyInsert l subs) else (v, a, subs)
      | none => (v, a, subs)
    else (v, a, subs)) ([], [], [])

/-- The observed video-codec set of a probe. -/
def observedVideoCodecs (probe : Probe) : List (Option String) :=
  (collectSets probe.streams).1

/-- The observed audio-codec set of a probe. -/
def observedAudioCodecs (probe : Probe) : List (Option String) :=
  (collectSets probe.streams).2.1

/-- The observed subtitle-language set of a probe (tagged streams only). -/
def observedSubtitleLanguages (probe : Probe) : List String :=
  (collectSets probe.streams).2.2

/-- `get_video_compliance` (src/scanner.py), success path: the per-property
boolean dictionary, in insertion order, `overall` last.  (The probe-failure
branch returns `{'probe_error': False}` before any property is evaluated;
the claims below quantify over successfully probed files, so the function is
given the parsed probe.  The verbose explanation dictionary only renders
Python set reprs into strings and is not modelled.) -/
def get_video_compliance (probe : Probe) (cfg : CheckCfg) : List (String × Bool) :=
  let video_codecs := observedVideoCodecs probe
  let audio_codecs := observedAudioCodecs probe
  let subtitle_languages := observedSubtitleLanguages probe
  let format_names := pySplit probe.format_name ','
  let video_codec_compliant := decide ((some cfg.video_codec) ∈ video_codecs)
  let audio_codec_compliant :=
    decide ((some cfg.audio_codec_stereo) ∈ audio_codecs ∨
            (some cfg.audio_codec_surround) ∈ audio_codecs)
  let missing_subtitles := cfg.subtitles.filter (fun lang => lang ∉ subtitle_languages)
  let extra_subtitles := decide (subtitle_languages.length > cfg.subtitles.length)
  let subtitles_compliant := missing_subtitles.isEmpty && !extra_subtitles
  let container := (VIDEO_EXTENSIONS_TO_CONTAINER.lookup cfg.container).getD cfg.container
  let format_compliant := decide (container ∈ format_names)
  let compliance_results :=
    [("video_codec", video_codec_compliant),
     ("audio_codec", audio_codec_compliant),
     ("subtitles", subtitles_compliant),
     ("container", format_compliant)]
  let overall_compliance :=
    if compliance_results.isEmpty then true else compliance_results.all (·.2)
  compliance_results ++ [("overall", overall_compliance)]

/-- Number of subtitle streams (tracks) a probe reports, tagged or not. -/
def numSubtitleTracks (probe : Probe) : Nat :=
  (probe.streams.filter (fun s => s.codec_type = "subtitle")).length

/-- The subtitle criterion exactly as claim C4 states it (for comparison with
the code): every configured language observed, and the number of observed
subtitle *tracks* at most the configured count. -/
def claimedSubtitleCriterion (probe : Probe) (cfg : CheckCfg) : Prop :=
  (∀ l ∈ cfg.subtitles, l ∈ observedSubtitleLanguages probe) ∧
  numSubtitleTracks probe ≤ cfg.subtitles.length

instance (probe : Probe) (cfg : CheckCfg) : Decidable (claimedSubtitleCriterion probe cfg) := by
  unfold claimedSubtitleCriterion; infer_instance

/-- A probe with one video, one audio and two subtitle streams both tagged
`eng` (e.g. a text and a bitmap subtitle track for the same language). -/
def twoEngSubsProbe : Probe :=
  ⟨[⟨0, "video", some "hevc", none, none, some "yuv420p"⟩,
    ⟨1, "audio", some "aac", some "eng", some 2, none⟩,
    ⟨2, "subtitle", some "subrip", some "eng", none, none⟩,
    ⟨3, "subtitle", some "hdmv_pgs_subtitle", some "eng", none, none⟩],
   "matroska,webm", none⟩

/-- A configuration expecting a single `eng` subtitle language. -/
def oneEngSubCfg : CheckCfg := ⟨"hevc", "aac", "ac3", ["eng"], "mkv"⟩

/-! ### Directory scanner (src/scanner.py, find_videos / is_video_file)

src/scanner.py defines `is_video_file` twice at module level; Python rebinds
the name, so the second definition (line 67, which expects a `pathlib.Path`
argument and consults a four-extension list) is the one every call resolves
to at run time.  The first definition (line 52, a string-suffix test over
`VIDEO_EXTENSIONS`) is dead after module load. -/

instance {e a : Type} [DecidableEq e] [DecidableEq a] : DecidableEq (Except e a) := fun x y =>
  match x, y with
  | .ok u, .ok v => decidable_of_iff (u = v) (by simp)
  | .error u, .error v => decidable_of_iff (u = v) (by simp)
  | .ok _, .error _ => isFalse nofun
  | .error _, .ok _ => isFalse nofun

/-- A `pathlib.Path` value: the path string and whether the filesystem has a
regular file there (`Path.is_file()`). -/
structure PyPath where
  name : String
  isFile : Bool
  deriving DecidableEq, Repr

/-- An argument that is either a `Path` or a bare `str`; the two call sites
of `is_video_file` inside `find_videos` pass one of each. -/
inductive PyPathOrStr where
  | path : PyPath → PyPathOrStr
  | str : String → PyPathOrStr
  deriving DecidableEq, Repr

/-- First `is_video_file` definition (src/scanner.py line 52): a
case-insensitive suffix test over `VIDEO_EXTENSIONS`.  Shadowed by the later
definition and never the one called. -/
def is_video_file_v1 (file_path : String) : Bool :=
  VIDEO_EXTENSIONS.any (fun ext => pyEndsWith (pyLower file_path) ext)

/-- The extension list local to the second `is_video_file` definition. -/
def video_extensions_v2 : List String := [".mp4", ".avi", ".mov", ".mkv"]

/-- Second `is_video_file` definition (src/scanner.py line 67), the binding
in effect: `file_path.is_file() and file_path.suffix.lower() in [...]`.
A bare `str` argument has no `is_file` attribute, so the call raises
`AttributeError` before anything else. -/
def is_video_file (file_path : PyPathOrStr) : Except String Bool :=
  match file_path with
  | .path p => .ok (p.isFile && decide (pyLower (pySuffix p.name) ∈ video_extensions_v2))
  | .str _ => .error "AttributeError: str object has no attribute is_file"

/-- One `(root, files)` item of an `os.walk` traversal (the `dirs` component
is never read).  The traversal order is determined by the filesystem and is
supplied as input. -/
structure WalkDir where
  root : String
  files : List String
  deriving DecidableEq, Repr

/-- The inner `for file in files` loop of `find_videos`: returns the
accumulated list and whether the `max_count` early return fired. -/
def walkDirFiles (root : String) (files : List String) (max_count : Int)
    (filter_fn : Option (String → Bool)) (acc : List String) :
    Except String (List String × Bool) :=
  match files with
  | [] => .ok (acc, false)
  | file :: rest =>
    match is_video_file (.str file) with
    | .error e => .error e
    | .ok b =>
      if b then
        let file_path := root ++ "/" ++ file
        if (match filter_fn with | none => true | some f => f file_path) then
          let acc2 := acc ++ [file_path]
          if max_count > 0 ∧ (acc2.length : Int) ≥ max_count then .ok (acc2, true)
          else walkDirFiles root rest max_count filter_fn acc2
        else walkDirFiles root rest max_count filter_fn acc
      else walkDirFiles root rest max_count filter_fn acc

/-- The outer `for root, dirs, files in os.walk(path)` loop of
`find_videos`. -/
def walkAll (walk : List WalkDir) (max_count : Int)
    (filter_fn : Option (String → Bool)) (acc : List String) :
    Except String (List String) :=
  match walk with
  | [] => .ok acc
  | d :: ds =>
    match walkDirFiles d.root d.files max_count filter_fn acc with
    | .error e => .error e
    | .ok (acc2, true) => .ok acc2
    | .ok (acc2, false) => walkAll ds max_count filter_fn acc2

/-- `find_videos` (src/scanner.py line 22).  `path` is the input path;
`walk` is what `os.walk(path)` would yield when the path is a directory. -/
def find_videos (path : PyPath) (walk : List WalkDir) (max_count : Int)
    (filter_fn : Option (String → Bool)) : Except String (List String) :=
  if path.isFile then
    match is_video_file (.path path) with
    | .error e => .error e
    | .ok b => .ok (if b then [path.name] else [])
  else walkAll walk max_count filter_fn []

/-! ### Configuration (src/config.py)

A YAML scalar/list value as `yaml.safe_load` hands it to
`VidConfig.update_from_dict`, plus the `Path` values the dataclass stores. -/

inductive PyVal where
  | str : String → PyVal
  | int : Int → PyVal
  | list : List PyVal → PyVal
  | path : String → PyVal

/-- The `VidConfig` dataclass: exactly the six declared fields, each holding
whatever value `setattr` last stored there. -/
structure VidConfig where
  container : PyVal
  video_codec : PyVal
  audio_codec : PyVal
  language : PyVal
  subtitles : PyVal
  backup_dir : PyVal

/-- The dataclass field defaults of `VidConfig`. -/
def VidConfig.defaults : VidConfig :=
  ⟨.str "mkv", .str "hevc", .str "aac",
   .list [.str "eng", .str "spa", .str "esp"],
   .list [.str "eng", .str "spa", .str "esp"],
   .path "backup"⟩

/-- `getattr(config, key)`: the six dataclass fields; any other name raises
`AttributeError` (`none`).  (Methods of the dataclass are not modelled; no
key the repository reads collides with a method name.) -/
def VidConfig.pyGetattr (c : VidConfig) (key : String) : Option PyVal :=
  if key = "container" then some c.container
  else if key = "video_codec" then some c.video_codec
  else if key = "audio_codec" then some c.audio_codec
  else if key = "language" then some c.language
  else if key = "subtitles" then some c.subtitles
  else if key = "backup_dir" then some c.backup_dir
  else none

/-- `setattr(config, key, v)` for a declared field; other keys are never
stored by `update_from_dict` (its `hasattr` guard fails first). -/
def VidConfig.pySetattr (c : VidConfig) (key : String) (v : PyVal) : VidConfig :=
  if key = "container" then { c with container := v }
  else if key = "video_codec" then { c with video_codec := v }
  else if key = "audio_codec" then { c with audio_codec := v }
  else if key = "language" then { c with language := v }
  else if key = "subtitles" then { c with subtitles := v }
  else if key = "backup_dir" then { c with backup_dir := v }
  else c

/-- `pathlib.Path(value)`: accepts a `str` (or another `Path`); any other
value raises `TypeError`. -/
def pyPathOf : PyVal → Except String PyVal
  | .str s => .ok (.path s)
  | .path s => .ok (.path s)
  | _ => .error "TypeError: argument should be a str or an os.PathLike object"

/-- One key of `VidConfig.update_from_dict` (src/config.py line 18): known
keys are stored, a list-typed attribute wraps a non-list value in a
one-element list, a Path-typed attribute converts the value via `Path(...)`,
and an unknown key is ignored with a warning. -/
def updateKey (c : VidConfig) (key : String) (value : PyVal) : Except String VidConfig :=
  match c.pyGetattr key with
  | none => .ok c
  | some attr =>
    match attr with
    | .list _ =>
      let value' := match value with | .list l => PyVal.list l | v => .list [v]
      .ok (c.pySetattr key value')
    | .path _ =>
      match value with
      | .path p => .ok (c.pySetattr key (.path p))
      | v => do
        let p ← pyPathOf v
        .ok (c.pySetattr key p)
    | _ => .ok (c.pySetattr key value)

/-- `VidConfig.update_from_dict`: apply the override dict's items in
iteration order. -/
def update_from_dict (c : VidConfig) (d : List (String × PyVal)) : Except String VidConfig :=
  d.foldlM (fun c kv => updateKey c kv.1 kv.2) c

/-- `find_all_yaml_configs` (src/config.py line 62) visits the target path's
ancestor directories from the filesystem root down to the target and collects
the parsed `mediatk.yaml` of each directory that has one.  The ancestor chain
is supplied root-first: one entry per directory, `none` when the directory
has no config file, `some d` for the parsed override (a parse failure yields
the empty dict, i.e. `some []`). -/
def find_all_yaml_configs (chain : List (Option (List (String × PyVal)))) :
    List (List (String × PyVal)) :=
  chain.filterMap id

/-- `get_environment_config` (src/config.py line 44): start from the
dataclass defaults and fold the discovered overrides over them in
root-to-leaf order. -/
def get_environment_config (chain : List (Option (List (String × PyVal)))) :
    Except String VidConfig :=
  (find_all_yaml_configs chain).foldlM update_from_dict VidConfig.defaults

/-- The declared field names of `VidConfig`. -/
def vidConfigFields : List String :=
  ["container", "video_codec", "audio_codec", "language", "subtitles", "backup_dir"]

/-- A YAML override value of the shape the corresponding `VidConfig` field
expects: a list for the two list fields, a string for `backup_dir` (stored as
a `Path`), a string for the scalar codec/container fields. -/
def wellTypedFor (key : String) (v : PyVal) : Prop :=
  if key = "language" ∨ key = "subtitles" then ∃ l, v = PyVal.list l
  else if key = "backup_dir" then ∃ s, v = PyVal.str s
  else ∃ s, v = PyVal.str s

/-- The stored form of a well-typed override value: `backup_dir` strings are
wrapped into `Path`s, everything else is stored as given. -/
def resolvedValue (key : String) (v : PyVal) : PyVal :=
  if key = "backup_dir" then
    match v with
    | .str s => .path s
    | v => v
  else v

/-- The configuration attributes `process` (src/processor.py lines 55-60)
dereferences but `VidConfig` does not declare. -/
def processorMissingReads : List String := ["video_quality", "rc_mode"]

/-- The configuration attributes `get_video_compliance` (src/scanner.py
lines 125-128) dereferences but `VidConfig` does not declare. -/
def scannerMissingReads : List String := ["audio_codec_stereo", "audio_codec_surround"]

/-- The `pyGetattr` of a resolved configuration, `none` when resolution
failed. -/
def envAttr (r : Except String VidConfig) (key : String) : Option PyVal :=
  match r with
  | .ok c => c.pyGetattr key
  | .error _ => none

/-! ### Transcode parameter builder (src/processor.py) -/

/-- `stream.get('tags', {}).get('language', 'und')` in the stream-collection
loops of src/processor.py. -/
def langOf (s : MediaStream) : String := s.tagsLanguage.getD "und"

/-- The Python dict `{stream['index']: running per-type position}` built by
the per-type-index loops: keyed by the probe's `index` field, a later
assignment overwriting an earlier one with the same key. -/
def perTypeIndices (ctype : String) (streams : List MediaStream) : Nat → Option Nat :=
  (streams.foldl (fun (acc : (Nat → Option Nat) × Nat) s =>
    if s.codec_type = ctype then
      (fun j => if j = s.index then some acc.2 else acc.1 j, acc.2 + 1)
    else acc) (fun _ => none, 0)).1

/-- One collected audio stream: the `input_stream[f'a:{i}']` selector, the
channel count (default 2), the codec name (default `unknown`) and the
per-type index. -/
structure AudioInfo where
  stream : String
  channels : Nat
  codec_name : String
  index : Nat
  deriving DecidableEq, Repr

/-- The inner `for stream in probe['streams']` loop of
`collect_audio_streams`, with its `break`: the first audio stream whose
language tag equals `lang`.  The per-type-index lookup cannot fail for a
dict built from the same stream list (`perTypeIndices_isSome` below), so
Python's `KeyError` cannot occur and the `none` fallthrough is dead. -/
def findAudioForLang (streams : List MediaStream) (indices : Nat → Option Nat)
    (lang : String) : Option AudioInfo :=
  match streams with
  | [] => none
  | s :: rest =>
    if s.codec_type = "audio" ∧ langOf s = lang then
      match indices s.index with
      | some i => some ⟨s!"a:{i}", s.channels.getD 2, s.codec_name.getD "unknown", i⟩
      | none => none
    else findAudioForLang rest indices lang

/-- The append-or-warn step of the audio-collection loop: a found stream is
appended to the selection, a miss appends the warning line. -/
def collectStep (w : String) (r : Option AudioInfo)
    (acc : List AudioInfo × List String) : List AudioInfo × List String :=
  match r with
  | some info => (acc.1 ++ [info], acc.2)
  | none => (acc.1, acc.2 ++ [w])

/-- `collect_audio_streams` (src/processor.py line 177): iterate the
configured language list in its order, take the first matching audio stream
per language, and echo a warning for each unmatched language (the echoed
lines are the second component; Python quotes the language name in them). -/
def collect_audio_streams (probe : Probe) (language : List String) :
    List AudioInfo × List String :=
  let indices := perTypeIndices "audio" probe.streams
  language.foldl (fun acc lang =>
    collectStep s!"Warning: Audio stream with language {lang} not found."
      (findAudioForLang probe.streams indices lang) acc) ([], [])

/-- The append step of the subtitle-collection inner loop (as for audio,
the `none` branch of the per-type-index lookup is dead). -/
def appendIfSome (r : Option String) (acc : List String) : List String :=
  match r with
  | some sel => acc ++ [sel]
  | none => acc

/-- `collect_subtitle_streams` (src/processor.py line 213): for each
configured subtitle language, append a selector for every matching subtitle
stream — this loop, unlike the audio one, has no `break`. -/
def collect_subtitle_streams (probe : Probe) (subtitles : List String) : List String :=
  let indices := perTypeIndices "subtitle" probe.streams
  subtitles.foldl (fun acc lang =>
    probe.streams.foldl (fun acc2 s =>
      if s.codec_type = "subtitle" ∧ langOf s = lang then
        appendIfSome ((indices s.index).map (fun i => s!"s:{i}")) acc2
      else acc2) acc) []

/-- The subtitle selection as claim C2 words it — the *first* matching
subtitle stream per configured language — for comparison with the code. -/
def collect_subtitle_streams_firstMatch (probe : Probe) (subtitles : List String) :
    List String :=
  let indices := perTypeIndices "subtitle" probe.streams
  subtitles.filterMap (fun lang =>
    (probe.streams.find? (fun s => decide (s.codec_type = "subtitle" ∧ langOf s = lang))).bind
      (fun s => (indices s.index).map (fun i => s!"s:{i}")))

/-- The audio selection restated declaratively: the first matching audio
stream (by `List.find?`) per configured language, in configured order. -/
def collect_audio_streams_spec (probe : Probe) (language : List String) :
    List AudioInfo :=
  let indices := perTypeIndices "audio" probe.streams
  language.filterMap (fun lang =>
    (probe.streams.find? (fun s => decide (s.codec_type = "audio" ∧ langOf s = lang))).bind
      (fun s => (indices s.index).map (fun i =>
        ⟨s!"a:{i}", s.channels.getD 2, s.codec_name.getD "unknown", i⟩)))

/-- The `pix_fmt_bit_depth` table of `determine_video_filter`
(src/processor.py line 141). -/
def pix_fmt_bit_depth : List (String × Nat) :=
  [("yuv420p", 8), ("yuv422p", 8), ("yuv444p", 8), ("nv12", 8),
   ("yuv420p10le", 10), ("yuv422p10le", 10), ("yuv444p10le", 10),
   ("p010le", 10), ("p210le", 10),
   ("yuv420p12le", 12), ("yuv422p12le", 12), ("yuv444p12le", 12),
   ("p016le", 16)]

/-- `determine_video_filter` (src/processor.py line 141): the first video
stream's bit depth (8 when the pixel format is unknown; `none` when there is
no video stream) and the hardware-upload filter chain. -/
def determine_video_filter (probe : Probe) : Option Nat × String :=
  match probe.streams.find? (fun s => decide (s.codec_type = "video")) with
  | none => (none, "")
  | some video_stream =>
    let input_pix_fmt := video_stream.pix_fmt.getD ""
    let input_bit_depth := (pix_fmt_bit_depth.lookup input_pix_fmt).getD 8
    (some input_bit_depth,
     if input_bit_depth > 8 then "format=p010le,hwupload" else "format=nv12,hwupload")

/-- The configuration attributes `process` dereferences: `container`,
`video_codec`, `video_quality`, `rc_mode`, `language`, `subtitles`
(`video_quality` and `rc_mode` are not `VidConfig` fields — see the
attribute-lookup theorems). -/
structure ProcCfg where
  container : String
  video_codec : String
  video_quality : Option Int
  rc_mode : String
  language : List String
  subtitles : List String
  deriving DecidableEq, Repr

/-- `process` (src/processor.py line 8), with the external world explicit:
`probe` is the parsed result of the `ffmpeg.probe` call (whose failure would
propagate uncaught), `run_ok` stands for the success of the final
`ffmpeg.run` call (whose failure also propagates), and the result pairs the
output-path-or-`None` with the `click.echo` lines the claims mention.
The source compares `vidconfig.rc_mode` against the two literals with `is
not` (object identity); for the interned literals this coincides with string
inequality, which is how it is modelled.  The assembled encoding, metadata
and disposition parameters feed only the external invocation and are not
modelled beyond the collected stream selectors. -/
def process (input_file : String) (vidconfig : ProcCfg) (probe : Probe)
    (duration : Option String) (run_ok : Bool) :
    Except String (Option String × List String) :=
  let logs0 := [s!"Processing {input_file}..."]
  let cont := if vidconfig.container = "" then "mp4" else vidconfig.container
  let output_filename := "output_" ++ pyStem input_file ++ "." ++ cont
  let output_file := pyJoin (pyParent input_file) output_filename
  match (determine_video_filter probe).1 with
  | none => .ok (none, logs0 ++ ["No video stream found in the input file."])
  | some _input_bit_depth =>
    -- `probe['format']['duration']` / `float(...)`: raises when absent or
    -- malformed; `Probe.formatDuration` is `some` exactly when both succeed.
    if duration.isSome && probe.formatDuration.isNone then
      .error "KeyError or ValueError: format duration absent or malformed"
    else
      let rcBad := vidconfig.video_quality.isSome &&
        (!(vidconfig.rc_mode == "CQP") && !(vidconfig.rc_mode == "VBR"))
      if rcBad then
        .ok (none, logs0 ++ [s!"Unsupported rate control mode: {vidconfig.rc_mode}"])
      else
        let collected := collect_audio_streams probe vidconfig.language
        let logs1 := logs0 ++ collected.2
        if collected.1.isEmpty then
          .ok (none, logs1 ++ ["No matching audio streams found in the input file."])
        else
          let _ordered_subtitle_streams :=
            collect_subtitle_streams probe vidconfig.subtitles
          if run_ok then .ok (some output_file, logs1)
          else .error "ffmpeg.Error: ffmpeg.run failed"

/-- The probe reveals no video stream. -/
def noVideoStream (probe : Probe) : Prop :=
  ∀ s ∈ probe.streams, s.codec_type ≠ "video"

/-- A video quality is configured and the rate-control mode is neither of
the two supported modes. -/
def rcUnsupported (cfg : ProcCfg) : Prop :=
  cfg.video_quality.isSome = true ∧ cfg.rc_mode ≠ "CQP" ∧ cfg.rc_mode ≠ "VBR"

/-- No configured audio language matches any audio stream of the probe. -/
def noAudioMatched (probe : Probe) (cfg : ProcCfg) : Prop :=
  ∀ lang ∈ cfg.language, ∀ s ∈ probe.streams,
    ¬(s.codec_type = "audio" ∧ langOf s = lang)

/-- The operation completed and returned Python `None`. -/
def isNullResult (r : Except String (Option String × List String)) : Prop :=
  ∃ logs, r = .ok (none, logs)

instance (cfg : ProcCfg) : Decidable (rcUnsupported cfg) := by
  unfold rcUnsupported; infer_instance

instance (probe : Probe) (cfg : ProcCfg) : Decidable (noAudioMatched probe cfg) := by
  unfold noAudioMatched; infer_instance

instance (probe : Probe) : Decidable (noVideoStream probe) := by
  unfold noVideoStream; infer_instance

/-! ### Media transfer (src/transfer.py) -/

/-- `MEDIA_EXTENSIONS` at the top of src/transfer.py (a Python set; only
membership is consumed). -/
def MEDIA_EXTENSIONS : List String :=
  [".mp4", ".mp3", ".avi", ".mov", ".jpg", ".png", ".jpeg", ".mkv", ".flac", ".wav"]

/-- `RAR_EXTENSION` at the top of src/transfer.py. -/
def RAR_EXTENSION : String := ".rar"

/-- `is_media_file`: case-insensitive extension membership. -/
def is_media_file (file_name : String) : Bool :=
  decide (pyLower (pySplitext file_name).2 ∈ MEDIA_EXTENSIONS)

/-- `is_rar_file`: the lower-cased name ends with `.rar`. -/
def is_rar_file (file_name : String) : Bool :=
  pyEndsWith (pyLower file_name) RAR_EXTENSION

/-- A file of a source tree for `transfer_media_files`, in `os.walk` order:
its directory, its bare name, whether opening and extracting it as a RAR
archive would succeed, and — when it would — the files its extraction
places under the extraction directory (again in walk order, roots as they
would appear there).  For a file that is not a valid archive, `extractOk`
is `false` with empty `contents`: `extract_rar_file` would log the
`rarfile.Error` and return, and walking the then-missing extraction
directory yields nothing. -/
inductive TEntry where
  | mk (root : String) (name : String) (extractOk : Bool) (contents : List TEntry)

/-- The error line `extract_rar_file` prints on a failed extraction
(src/transfer.py line 23; Python also appends the exception text). -/
def extractErrorLine (src : String) : String := s!"Error extracting {src}"

/-- Observable effects of a transfer: the `shutil.move` calls (source,
destination), the extraction attempts (archive path, extraction directory,
success), and the error lines of failed extractions. -/
structure TransferResult where
  moves : List (String × String)
  extracts : List (String × String × Bool)
  errors : List String

mutual
/-- One file of the walk in `transfer_media_files` (src/transfer.py line
26): a media-named file is moved flat into `dest_dir`; a RAR-named file is
extracted into `dest_dir/<name minus extension>` (failures logged and
swallowed by `extract_rar_file`) and the extraction directory is then
transferred recursively with the same destination; any other file is left
in place. -/
def transfer_entry (dest_dir : String) : TEntry → TransferResult
  | .mk root name extractOk contents =>
    if is_media_file name then
      ⟨[(root ++ "/" ++ name, dest_dir ++ "/" ++ name)], [], []⟩
    else if is_rar_file name then
      let src := root ++ "/" ++ name
      let extract_to := dest_dir ++ "/" ++ (pySplitext name).1
      if extractOk then
        let r := transfer_list dest_dir contents
        ⟨r.moves, (src, extract_to, true) :: r.extracts, r.errors⟩
      else
        ⟨[], [(src, extract_to, false)], [extractErrorLine src]⟩
    else ⟨[], [], []⟩

/-- `transfer_media_files` over the walk of a source directory. -/
def transfer_list (dest_dir : String) : List TEntry → TransferResult
  | [] => ⟨[], [], []⟩
  | e :: rest =>
    let r1 := transfer_entry dest_dir e
    let r2 := transfer_list dest_dir rest
    ⟨r1.moves ++ r2.moves, r1.extracts ++ r2.extracts, r1.errors ++ r2.errors⟩
end

/-- The media files a transfer reaches, as (directory, name) pairs: media
files of the walk, plus — transitively — those inside archives whose
extraction succeeds. -/
def reachableMedia : List TEntry → List (String × String)
  | [] => []
  | .mk root name extractOk contents :: rest =>
    (if is_media_file name then [(root, name)]
     else if is_rar_file name && extractOk then reachableMedia contents
     else []) ++ reachableMedia rest

/-- The archives a transfer attempts to extract, as (directory, name,
success) triples; archives inside a failed extraction are never seen. -/
def reachableArchives : List TEntry → List (String × String × Bool)
  | [] => []
  | .mk root name extractOk contents :: rest =>
    (if is_media_file name then []
     else if is_rar_file name then
       (root, name, extractOk) ::
         (if extractOk then reachableArchives contents else [])
     else []) ++ reachableArchives rest

end Mediatk

namespace Mediatk

/-! ### Lemmas about the stream-selection loops -/

/-- A fold step of the per-type-index dict never erases a `some` entry. -/
theorem perTypeIndices_foldl_mono (ctype : String) (l : List MediaStream)
    (acc : (Nat → Option Nat) × Nat) (j : Nat) (h : (acc.1 j).isSome) :
    (((l.foldl (fun (acc : (Nat → Option Nat) × Nat) s =>
        if s.codec_type = ctype then
          (fun j => if j = s.index then some acc.2 else acc.1 j, acc.2 + 1)
        else acc) acc)).1 j).isSome := by
  induction l generalizing acc with
  | nil => exact h
  | cons x l ih =>
    rw [List.foldl_cons]
    apply ih
    by_cases hx : x.codec_type = ctype
    · simp only [hx, if_true]
      by_cases hj : j = x.index <;> simp [hj, h]
    · simp [hx, h]

/-- Every stream of the matching codec type has an entry in the
per-type-index dict built from the same stream list (Python's `KeyError`
cannot fire in the collection loops). -/
theorem perTypeIndices_isSome (ctype : String) (streams : List MediaStream)
    (s : MediaStream) (hs : s ∈ streams) (ht : s.codec_type = ctype) :
    (perTypeIndices ctype streams s.index).isSome := by
  unfold perTypeIndices
  suffices h : ∀ (l : List MediaStream) (acc : (Nat → Option Nat) × Nat),
      s ∈ l →
      (((l.foldl (fun (acc : (Nat → Option Nat) × Nat) s =>
          if s.codec_type = ctype then
            (fun j => if j = s.index then some acc.2 else acc.1 j, acc.2 + 1)
          else acc) acc)).1 s.index).isSome by
    exact h streams (fun _ => none, 0) hs
  intro l
  induction l with
  | nil => intro acc h; exact absurd h (List.not_mem_nil s)
  | cons x l ih =>
    intro acc h
    rcases List.mem_cons.mp h with rfl | h
    · rw [List.foldl_cons]
      apply perTypeIndices_foldl_mono
      simp [ht]
    · rw [List.foldl_cons]
      exact ih _ h

/-- The inner audio loop is the declarative first-match selection. -/
theorem findAudioForLang_eq (streams : List MediaStream)
    (indices : Nat → Option Nat) (lang : String) :
    findAudioForLang streams indices lang =
      (streams.find? (fun s => decide (s.codec_type = "audio" ∧ langOf s = lang))).bind
        (fun s => (indices s.index).map (fun i =>
          ⟨s!"a:{i}", s.channels.getD 2, s.codec_name.getD "unknown", i⟩)) := by
  induction streams with
  | nil => rfl
  | cons s rest ih =>
    by_cases h : s.codec_type = "audio" ∧ langOf s = lang
    · rw [findAudioForLang, List.find?_cons_of_pos _ (by simpa using h)]
      rw [if_pos h]
      cases hi : indices s.index <;> simp [hi]
    · rw [findAudioForLang, List.find?_cons_of_neg _ (by simpa using h)]
      simp only [h, if_false, ih]

/-- Unwinding the accumulating audio-collection fold. -/
theorem foldl_collect_eq {α : Type} (g : α → Option AudioInfo) (w : α → String)
    (l : List α) (acc : List AudioInfo × List String) :
    l.foldl (fun acc x => collectStep (w x) (g x) acc) acc =
    (acc.1 ++ l.filterMap g,
     acc.2 ++ (l.filter (fun x => (g x).isNone)).map w) := by
  induction l generalizing acc with
  | nil => simp
  | cons x l ih =>
    rw [List.foldl_cons, ih]
    cases hx : g x <;>
      simp [collectStep, List.filterMap_cons, List.filter_cons, hx]

/-- Unwinding the subtitle-collection inner fold. -/
theorem foldl_appendIfSome_eq {α : Type} (P : α → Prop) [DecidablePred P]
    (h : α → Option String) (l : List α) (acc : List String) :
    l.foldl (fun acc x => if P x then appendIfSome (h x) acc else acc) acc =
      acc ++ l.filterMap (fun x => if P x then h x else none) := by
  induction l generalizing acc with
  | nil => simp
  | cons x l ih =>
    rw [List.foldl_cons, ih]
    by_cases hP : P x
    · cases hx : h x <;> simp [hP, hx, appendIfSome, List.filterMap_cons]
    · simp [hP, List.filterMap_cons]

/-- Pointwise-equal step functions fold alike. -/
theorem foldl_fun_congr {α β : Type} (f g : β → α → β) (l : List α) (a : β)
    (h : ∀ b x, f b x = g b x) : l.foldl f a = l.foldl g a := by
  induction l generalizing a with
  | nil => rfl
  | cons x l ih => rw [List.foldl_cons, List.foldl_cons, h, ih]

/-- Folding list append from an accumulator is `bind`. -/
theorem foldl_append_bind {α β : Type} (F : α → List β) (l : List α) (acc : List β) :
    l.foldl (fun acc x => acc ++ F x) acc = acc ++ l.flatMap F := by
  induction l generalizing acc with
  | nil => simp
  | cons x l ih => simp [List.foldl_cons, ih]

/-- `collect_audio_streams`, closed form: first match per configured
language in configured order, a warning per unmatched language. -/
theorem collect_audio_streams_eq (probe : Probe) (language : List String) :
    collect_audio_streams probe language =
      (collect_audio_streams_spec probe language,
       (language.filter (fun lang =>
          (findAudioForLang probe.streams (perTypeIndices "audio" probe.streams)
            lang).isNone)).map
         (fun lang => s!"Warning: Audio stream with language {lang} not found.")) := by
  simp only [collect_audio_streams, collect_audio_streams_spec]
  rw [foldl_collect_eq
    (fun lang => findAudioForLang probe.streams (perTypeIndices "audio" probe.streams) lang)
    (fun lang => s!"Warning: Audio stream with language {lang} not found.")
    language ([], [])]
  simp only [List.nil_append]
  congr 1
  apply List.filterMap_congr
  intro lang _
  exact findAudioForLang_eq probe.streams _ lang

/-- `collect_subtitle_streams`, closed form: per configured language (in
configured order), the selectors of every matching subtitle stream in
declaration order. -/
theorem collect_subtitle_streams_eq (probe : Probe) (subtitles : List String) :
    collect_subtitle_streams probe subtitles =
      subtitles.flatMap (fun lang => probe.streams.filterMap (fun s =>
        if s.codec_type = "subtitle" ∧ langOf s = lang then
          ((perTypeIndices "subtitle" probe.streams) s.index).map (fun i => s!"s:{i}")
        else none)) := by
  simp only [collect_subtitle_streams]
  rw [foldl_fun_congr _ (fun acc lang => acc ++ probe.streams.filterMap (fun s =>
        if s.codec_type = "subtitle" ∧ langOf s = lang then
          ((perTypeIndices "subtitle" probe.streams) s.index).map (fun i => s!"s:{i}")
        else none)) subtitles []
      (fun b lang => foldl_appendIfSome_eq _ _ probe.streams b)]
  rw [foldl_append_bind]
  rfl

/-- The first-match audio lookup fails exactly when no audio stream carries
the language. -/
theorem findAudioForLang_eq_none_iff (probe : Probe) (lang : String) :
    findAudioForLang probe.streams (perTypeIndices "audio" probe.streams) lang = none ↔
      ∀ s ∈ probe.streams, ¬(s.codec_type = "audio" ∧ langOf s = lang) := by
  rw [findAudioForLang_eq]
  constructor
  · intro h s hs hp
    cases hfind : probe.streams.find? (fun s => decide (s.codec_type = "audio" ∧ langOf s = lang)) with
    | none =>
      have := List.find?_eq_none.mp hfind s hs
      simp [hp.1, hp.2] at this
    | some s0 =>
      have hs0mem := List.mem_of_find?_eq_some hfind
      have hs0p := List.find?_some hfind
      simp only [decide_eq_true_eq] at hs0p
      have hidx := perTypeIndices_isSome "audio" probe.streams s0 hs0mem hs0p.1
      rw [hfind] at h
      cases hidx2 : perTypeIndices "audio" probe.streams s0.index with
      | none => rw [hidx2] at hidx; exact absurd hidx (by simp)
      | some i =>
        rw [show ((some s0).bind fun s =>
            Option.map (fun i =>
              AudioInfo.mk s!"a:{i}" (s.channels.getD 2) (s.codec_name.getD "unknown") i)
              (perTypeIndices "audio" probe.streams s.index)) =
            Option.map (fun i =>
              AudioInfo.mk s!"a:{i}" (s0.channels.getD 2) (s0.codec_name.getD "unknown") i)
              (perTypeIndices "audio" probe.streams s0.index) from rfl, hidx2] at h
        exact absurd h (by simp)
  · intro h
    rw [List.find?_eq_none.mpr (fun s hs => by simpa using h s hs)]
    rfl

/-- The first-match audio lookup misses exactly when `List.find?` does (the
per-type-index lookup of a found stream cannot fail). -/
theorem findAudioForLang_isNone_eq (probe : Probe) (lang : String) :
    (findAudioForLang probe.streams (perTypeIndices "audio" probe.streams) lang).isNone =
      (probe.streams.find? (fun s =>
        decide (s.codec_type = "audio" ∧ langOf s = lang))).isNone := by
  cases hfind : probe.streams.find? (fun s =>
      decide (s.codec_type = "audio" ∧ langOf s = lang)) with
  | none => rw [findAudioForLang_eq, hfind]; rfl
  | some s0 =>
    rw [findAudioForLang_eq, hfind]
    have hs0p := List.find?_some hfind
    simp only [decide_eq_true_eq] at hs0p
    have hidx := perTypeIndices_isSome "audio" probe.streams s0
      (List.mem_of_find?_eq_some hfind) hs0p.1
    obtain ⟨i, hi⟩ := Option.isSome_iff_exists.mp hidx
    simp [hi]

/-- `collect_audio_streams` resolves zero streams exactly when no configured
language matches any audio stream. -/
theorem collect_audio_empty_iff (probe : Probe) (language : List String) :
    (collect_audio_streams probe language).1 = [] ↔
      ∀ lang ∈ language, ∀ s ∈ probe.streams,
        ¬(s.codec_type = "audio" ∧ langOf s = lang) := by
  rw [collect_audio_streams_eq]
  simp only [collect_audio_streams_spec, List.filterMap_eq_nil_iff]
  constructor
  · intro h lang hl
    have := h lang hl
    rw [← findAudioForLang_eq] at this
    exact (findAudioForLang_eq_none_iff probe lang).mp this
  · intro h lang hl
    rw [← findAudioForLang_eq]
    exact (findAudioForLang_eq_none_iff probe lang).mpr (h lang hl)

/-- The first component of `determine_video_filter` is `none` exactly when
the probe has no video stream. -/
theorem determine_video_filter_none_iff (probe : Probe) :
    (determine_video_filter probe).1 = none ↔ noVideoStream probe := by
  unfold determine_video_filter noVideoStream
  cases hfind : probe.streams.find? (fun s => decide (s.codec_type = "video")) with
  | none =>
    constructor
    · intro _ s hs h
      have := List.find?_eq_none.mp hfind s hs
      simp [h] at this
    · intro _; rfl
  | some v =>
    constructor
    · intro h; exact absurd h (by simp)
    · intro h
      have hv := List.find?_some hfind
      have hmem := List.mem_of_find?_eq_some hfind
      simp only [decide_eq_true_eq] at hv
      exact absurd hv (h v hmem)

end Mediatk

namespace Mediatk

/-! ### Theorems: compliance checker -/

/-- C1: for every successfully probed file and configuration, the checker's
`overall` entry equals the conjunction of all evaluated per-property entries,
and were the evaluated list empty the `overall` entry would be `true`. -/
theorem overall_iff_all_evaluated (probe : Probe) (cfg : CheckCfg) :
    (List.lookup "overall" (get_video_compliance probe cfg) =
      some (((get_video_compliance probe cfg).filter (fun kv => kv.1 ≠ "overall")).all (·.2)))
    ∧ (((get_video_compliance probe cfg).filter (fun kv => kv.1 ≠ "overall")) = [] →
        List.lookup "overall" (get_video_compliance probe cfg) = some true) := by
  refine ⟨?_, ?_⟩ <;> simp [get_video_compliance, List.lookup]

/-- C5: the audio-codec compliance entry is true iff the configured stereo
codec or the configured surround codec occurs in the observed audio-codec
set. -/
theorem audio_codec_entry_iff (probe : Probe) (cfg : CheckCfg) :
    List.lookup "audio_codec" (get_video_compliance probe cfg) = some true ↔
      (some cfg.audio_codec_stereo ∈ observedAudioCodecs probe ∨
       some cfg.audio_codec_surround ∈ observedAudioCodecs probe) := by
  simp [get_video_compliance, List.lookup]

/-- C4 counterexample: with two subtitle tracks both tagged `eng` against the
configured list `[eng]`, the checker reports the subtitles entry compliant,
although the number of observed subtitle tracks (2) exceeds the configured
count (1) — the checker counts distinct observed languages, not tracks. -/
theorem subtitles_track_count_counterexample :
    List.lookup "subtitles" (get_video_compliance twoEngSubsProbe oneEngSubCfg) = some true ∧
    ¬ claimedSubtitleCriterion twoEngSubsProbe oneEngSubCfg := by
  exact ⟨by decide, by decide⟩

/-- C4 (amended): the subtitles entry is true iff every configured subtitle
language is among the observed (tagged, distinct) subtitle languages and the
number of *distinct* observed subtitle languages does not exceed the length
of the configured list; in particular, when the configured list has no
duplicates the entry is false whenever the observed languages form a strict
superset of the configured ones, and false whenever a configured language is
missing. -/
theorem subtitles_entry_iff (probe : Probe) (cfg : CheckCfg) :
    (List.lookup "subtitles" (get_video_compliance probe cfg) = some true ↔
      ((∀ l ∈ cfg.subtitles, l ∈ observedSubtitleLanguages probe) ∧
        (observedSubtitleLanguages probe).length ≤ cfg.subtitles.length)) ∧
    (cfg.subtitles.Nodup →
      (∀ l ∈ cfg.subtitles, l ∈ observedSubtitleLanguages probe) →
      (∃ l ∈ observedSubtitleLanguages probe, l ∉ cfg.subtitles) →
      List.lookup "subtitles" (get_video_compliance probe cfg) = some false) ∧
    ((∃ l ∈ cfg.subtitles, l ∉ observedSubtitleLanguages probe) →
      List.lookup "subtitles" (get_video_compliance probe cfg) = some false) := by
  have hmain : List.lookup "subtitles" (get_video_compliance probe cfg) =
      some ((cfg.subtitles.filter
              (fun lang => lang ∉ observedSubtitleLanguages probe)).isEmpty &&
            !(decide ((observedSubtitleLanguages probe).length > cfg.subtitles.length))) := by
    simp [get_video_compliance, List.lookup]
  refine ⟨?_, ?_, ?_⟩
  · rw [hmain]
    simp [List.isEmpty_iff, List.filter_eq_nil_iff, Nat.not_lt]
  · intro hnd hsub ⟨x, hxobs, hxcfg⟩
    rw [hmain]
    have hlt : cfg.subtitles.length < (observedSubtitleLanguages probe).length := by
      have hnd' : (x :: cfg.subtitles).Nodup := by
        exact List.nodup_cons.mpr ⟨hxcfg, hnd⟩
      have hsub' : (x :: cfg.subtitles) ⊆ observedSubtitleLanguages probe := by
        intro y hy
        rcases List.mem_cons.mp hy with h | h
        · exact h ▸ hxobs
        · exact hsub y h
      have := (hnd'.subperm hsub').length_le
      simpa [Nat.succ_le_iff] using this
    simp [hlt]
  · intro ⟨x, hxcfg, hxobs⟩
    rw [hmain]
    cases hfe : (cfg.subtitles.filter
        (fun lang => lang ∉ observedSubtitleLanguages probe)).isEmpty with
    | false => simp
    | true =>
      exfalso
      have hx : x ∈ cfg.subtitles.filter
          (fun lang => lang ∉ observedSubtitleLanguages probe) := by
        simp [List.mem_filter, hxcfg, hxobs]
      rw [List.isEmpty_iff.mp hfe] at hx
      exact absurd hx (List.not_mem_nil x)

/-! ### Theorems: directory scanner -/

/-- C3: evaluation of `find_videos` at a failing input.  Scanning a directory
whose walk yields a single matching file `a.mp4` does not return that file:
the walk loop passes a bare string to the effective `is_video_file`, which
dereferences `.is_file` and raises `AttributeError`, so no directory scan can
return a file list.  The single-file branch (which passes a `Path`) does
behave as the claim states. -/
theorem find_videos_directory_walk_raises :
    (find_videos ⟨"d", false⟩ [⟨"d", ["a.mp4"]⟩] (-1) none =
      .error "AttributeError: str object has no attribute is_file") ∧
    (find_videos ⟨"/x/a.mp4", true⟩ [] (-1) none = .ok ["/x/a.mp4"]) ∧
    (find_videos ⟨"/x/b.txt", true⟩ [] (-1) none = .ok []) := by
  exact ⟨rfl, by decide, by decide⟩

/-- C10: the second `is_video_file` definition is the binding in effect: a
`Path` argument qualifies iff it is an existing file whose lower-cased suffix
is one of `.mp4`, `.avi`, `.mov`, `.mkv`; the wider `VIDEO_EXTENSIONS` list
is never consulted (a `.webm` file passes the first, shadowed definition but
fails the effective one); a bare `str` argument raises `AttributeError`; and
the directory-walk loop of `find_videos` passes it exactly such a bare
file-name string. -/
theorem is_video_file_second_definition_in_effect :
    (∀ p : PyPath, is_video_file (.path p) = .ok true ↔
      (p.isFile = true ∧ pyLower (pySuffix p.name) ∈ [".mp4", ".avi", ".mov", ".mkv"])) ∧
    (is_video_file (.path ⟨"a.webm", true⟩) = .ok false ∧ is_video_file_v1 "a.webm" = true) ∧
    (∀ s : String, is_video_file (.str s) =
      .error "AttributeError: str object has no attribute is_file") ∧
    (find_videos ⟨"e", false⟩ [⟨"e", ["b.mkv"]⟩] 5 none =
      .error "AttributeError: str object has no attribute is_file") := by
  refine ⟨?_, ⟨by decide, by decide⟩, fun s => rfl, rfl⟩
  intro p
  simp [is_video_file, video_extensions_v2]

/-! ### Theorems: configuration -/

/-- C6: config resolution starts from the hardcoded defaults and applies the
discovered override files in root-to-leaf order, later overrides winning:
with no override files present the result is exactly the defaults, and a
(well-typed) key present in both an ancestor's and a descendant's override
file resolves to the descendant's value. -/
theorem config_defaults_and_descendant_wins :
    (∀ chain, (∀ x ∈ chain, x = none) →
      get_environment_config chain = .ok VidConfig.defaults) ∧
    (∀ (k : String) (v1 v2 : PyVal), k ∈ vidConfigFields →
      wellTypedFor k v1 → wellTypedFor k v2 →
      envAttr (get_environment_config [some [(k, v1)], some [(k, v2)]]) k =
        some (resolvedValue k v2)) := by
  constructor
  · intro chain h
    induction chain with
    | nil => rfl
    | cons x xs ih =>
      have hx := h x (by simp)
      subst hx
      have hrest := ih (fun y hy => h y (by simp [hy]))
      simpa [get_environment_config, find_all_yaml_configs] using hrest
  · intro k v1 v2 hk h1 h2
    simp only [vidConfigFields, List.mem_cons, List.not_mem_nil, or_false] at hk
    rcases hk with rfl | rfl | rfl | rfl | rfl | rfl <;>
      simp only [wellTypedFor, if_true, if_false, reduceIte] at h1 h2 <;>
      obtain ⟨w1, rfl⟩ := h1 <;> obtain ⟨w2, rfl⟩ := h2 <;>
      simp [get_environment_config, find_all_yaml_configs, update_from_dict,
        updateKey, VidConfig.pyGetattr, VidConfig.pySetattr, VidConfig.defaults,
        envAttr, resolvedValue, pyPathOf] <;> rfl

/-- C9: the attribute names the compliance checker's audio check and the
parameter builder's quality/rate-control check dereference on the
configuration are not declared fields of `VidConfig`, so for every
`VidConfig` value the attribute lookup fails (`AttributeError`). -/
theorem missing_config_attributes (c : VidConfig) (k : String)
    (hk : k ∈ scannerMissingReads ++ processorMissingReads) :
    c.pyGetattr k = none ∧ k ∉ vidConfigFields := by
  simp only [scannerMissingReads, processorMissingReads, List.cons_append,
    List.nil_append, List.mem_cons, List.not_mem_nil, or_false] at hk
  rcases hk with rfl | rfl | rfl | rfl <;>
    exact ⟨by simp [VidConfig.pyGetattr], by decide⟩

/-- C9 witness: the stereo audio codec attribute, read by the checker, is
absent from the default configuration. -/
theorem missing_config_attributes_witness :
    VidConfig.defaults.pyGetattr "audio_codec_stereo" = none ∧
    "audio_codec_stereo" ∉ vidConfigFields :=
  missing_config_attributes VidConfig.defaults "audio_codec_stereo" (by decide)

/-! ### Theorems: parameter builder -/

/-- Boolean rate-control test of `process` versus its propositional form. -/
theorem rcBad_iff (cfg : ProcCfg) :
    (cfg.video_quality.isSome &&
      (!(cfg.rc_mode == "CQP") && !(cfg.rc_mode == "VBR"))) = true ↔
      rcUnsupported cfg := by
  unfold rcUnsupported
  simp [Bool.and_eq_true]

/-- `process` in the no-video-stream case. -/
theorem process_no_video (input : String) (cfg : ProcCfg) (probe : Probe)
    (duration : Option String) (run_ok : Bool) (hv : noVideoStream probe) :
    process input cfg probe duration run_ok =
      .ok (none, [s!"Processing {input}...", "No video stream found in the input file."]) := by
  simp only [process, (determine_video_filter_none_iff probe).mpr hv]
  rfl

/-- `process` once a video stream exists and the duration lookup cannot
fail: the remaining branching on rate control, audio resolution and the
external run. -/
theorem process_with_video (input : String) (cfg : ProcCfg) (probe : Probe)
    (duration : Option String) (run_ok : Bool)
    (hv : ¬ noVideoStream probe)
    (hdur : duration = none ∨ probe.formatDuration.isSome = true) :
    process input cfg probe duration run_ok =
      if rcUnsupported cfg then
        .ok (none, [s!"Processing {input}...", s!"Unsupported rate control mode: {cfg.rc_mode}"])
      else if noAudioMatched probe cfg then
        .ok (none, [s!"Processing {input}..."] ++ (collect_audio_streams probe cfg.language).2 ++
          ["No matching audio streams found in the input file."])
      else if run_ok = true then
        .ok (some (pyJoin (pyParent input) ("output_" ++ pyStem input ++ "." ++
            (if cfg.container = "" then "mp4" else cfg.container))),
          [s!"Processing {input}..."] ++ (collect_audio_streams probe cfg.language).2)
      else .error "ffmpeg.Error: ffmpeg.run failed" := by
  obtain ⟨d, hd⟩ := Option.ne_none_iff_exists'.mp
    (fun h => hv ((determine_video_filter_none_iff probe).mp h))
  have hdurf : (duration.isSome && probe.formatDuration.isNone) = false := by
    rcases hdur with rfl | h
    · rfl
    · obtain ⟨x, hx⟩ := Option.isSome_iff_exists.mp h
      rw [hx]
      simp
  have hae : ((collect_audio_streams probe cfg.language).1.isEmpty = true) ↔
      noAudioMatched probe cfg := by
    rw [List.isEmpty_iff]
    unfold noAudioMatched
    exact collect_audio_empty_iff probe cfg.language
  simp only [process, hd, hdurf, Bool.false_eq_true, if_false]
  by_cases hrc : rcUnsupported cfg
  · rw [if_pos ((rcBad_iff cfg).mpr hrc), if_pos hrc]
    rfl
  · rw [if_neg (fun h => hrc ((rcBad_iff cfg).mp (by simpa using h))), if_neg hrc]
    by_cases hna : noAudioMatched probe cfg
    · rw [if_pos (hae.mpr hna), if_pos hna]
    · rw [if_neg (fun h => hna (hae.mp (by simpa using h))), if_neg hna]

/-- C2 counterexample: a probe with two subtitle streams both tagged `eng`,
against the configured subtitle list `[eng]`.  The claimed selection — "the
first matching subtitle stream" per configured language — would pick one
stream, but the code's subtitle loop has no `break` and selects both. -/
theorem subtitle_selection_not_first_match :
    collect_subtitle_streams twoEngSubsProbe ["eng"] = ["s:0", "s:1"] ∧
    collect_subtitle_streams_firstMatch twoEngSubsProbe ["eng"] = ["s:0"] ∧
    collect_subtitle_streams twoEngSubsProbe ["eng"] ≠
      collect_subtitle_streams_firstMatch twoEngSubsProbe ["eng"] := by
  refine ⟨by decide, by decide, by decide⟩

/-- C2 (amended): the audio selection iterates the configured language list
in its given order and picks the first matching audio stream per language
(with a warning per unmatched language); the subtitle selection, by
contrast, picks *every* matching subtitle stream per configured language
(its loop has no `break`); zero resolved audio streams aborts `process`
with a null result; and a run whose subtitle selection resolved zero
streams still succeeds. -/
theorem stream_selection_and_abort (probe : Probe) (cfg : ProcCfg)
    (input : String) (duration : Option String) (run_ok : Bool) :
    ((collect_audio_streams probe cfg.language).1 =
      collect_audio_streams_spec probe cfg.language) ∧
    ((collect_audio_streams probe cfg.language).2 =
      (cfg.language.filter (fun lang =>
        (probe.streams.find? (fun s =>
          decide (s.codec_type = "audio" ∧ langOf s = lang))).isNone)).map
        (fun lang => s!"Warning: Audio stream with language {lang} not found.")) ∧
    (collect_subtitle_streams probe cfg.subtitles =
      cfg.subtitles.flatMap (fun lang => probe.streams.filterMap (fun s =>
        if s.codec_type = "subtitle" ∧ langOf s = lang then
          ((perTypeIndices "subtitle" probe.streams) s.index).map (fun i => s!"s:{i}")
        else none))) ∧
    (¬ noVideoStream probe → (duration = none ∨ probe.formatDuration.isSome = true) →
      ¬ rcUnsupported cfg → noAudioMatched probe cfg →
      isNullResult (process input cfg probe duration run_ok)) ∧
    (¬ noVideoStream probe → (duration = none ∨ probe.formatDuration.isSome = true) →
      ¬ rcUnsupported cfg → ¬ noAudioMatched probe cfg →
      collect_subtitle_streams probe cfg.subtitles = [] → run_ok = true →
      ∃ out logs, process input cfg probe duration run_ok = .ok (some out, logs)) := by
  refine ⟨?_, ?_, collect_subtitle_streams_eq probe cfg.subtitles, ?_, ?_⟩
  · rw [collect_audio_streams_eq]
  · rw [collect_audio_streams_eq]
    rw [List.filter_congr (fun lang _ => findAudioForLang_isNone_eq probe lang)]
  · intro hv hdur hrc hna
    rw [process_with_video _ _ _ _ _ hv hdur, if_neg hrc, if_pos hna]
    exact ⟨_, rfl⟩
  · intro hv hdur hrc hna _ hrun
    subst hrun
    rw [process_with_video _ _ _ _ _ hv hdur, if_neg hrc, if_neg hna, if_pos rfl]
    exact ⟨_, _, rfl⟩

/-- C7: `process` returns Python `None` exactly in the three recoverable
cases — no video stream, unsupported rate-control mode (with a warning
echoed), or no configured audio language matching any audio stream — while
outside them the external run's failure propagates as a fatal error and its
success yields an output path. -/
theorem process_null_iff (input : String) (cfg : ProcCfg) (probe : Probe)
    (duration : Option String) (run_ok : Bool)
    (hdur : duration = none ∨ probe.formatDuration.isSome = true) :
    (isNullResult (process input cfg probe duration run_ok) ↔
      (noVideoStream probe ∨ rcUnsupported cfg ∨ noAudioMatched probe cfg)) ∧
    (¬ noVideoStream probe → rcUnsupported cfg →
      ∃ logs, process input cfg probe duration run_ok = .ok (none, logs) ∧
        s!"Unsupported rate control mode: {cfg.rc_mode}" ∈ logs) ∧
    (¬(noVideoStream probe ∨ rcUnsupported cfg ∨ noAudioMatched probe cfg) →
      (run_ok = true →
        ∃ out logs, process input cfg probe duration run_ok = .ok (some out, logs)) ∧
      (run_ok = false →
        process input cfg probe duration run_ok =
          .error "ffmpeg.Error: ffmpeg.run failed")) := by
  refine ⟨?_, ?_, ?_⟩
  · by_cases hv : noVideoStream probe
    · rw [process_no_video _ _ _ _ _ hv]
      simp [isNullResult, hv]
    · rw [process_with_video _ _ _ _ _ hv hdur]
      by_cases hrc : rcUnsupported cfg
      · simp [if_pos hrc, isNullResult, hrc]
      · by_cases hna : noAudioMatched probe cfg
        · simp [if_neg hrc, if_pos hna, isNullResult, hna]
        · cases run_ok <;> simp [if_neg hrc, if_neg hna, isNullResult, hna, hrc, hv]
  · intro hv hrc
    rw [process_with_video _ _ _ _ _ hv hdur, if_pos hrc]
    exact ⟨_, rfl, by simp⟩
  · intro hdisj
    push_neg at hdisj
    obtain ⟨hv, hrc, hna⟩ := hdisj
    constructor
    · intro hrun
      subst hrun
      rw [process_with_video _ _ _ _ _ hv hdur, if_neg hrc, if_neg hna, if_pos rfl]
      exact ⟨_, _, rfl⟩
    · intro hrun
      subst hrun
      rw [process_with_video _ _ _ _ _ hv hdur, if_neg hrc, if_neg hna,
        if_neg (by simp)]

/-- C7 witness: a probe with no streams at all (hence no video stream),
processed without a duration clamp, yields the null result exactly as the
three-case disjunction predicts. -/
theorem process_null_iff_witness :
    isNullResult (process "a.mkv" ⟨"mkv", "hevc", none, "CQP", ["eng"], ["eng"]⟩
        ⟨[], "matroska", none⟩ none true) ↔
      (noVideoStream ⟨[], "matroska", none⟩ ∨
       rcUnsupported ⟨"mkv", "hevc", none, "CQP", ["eng"], ["eng"]⟩ ∨
       noAudioMatched ⟨[], "matroska", none⟩
         ⟨"mkv", "hevc", none, "CQP", ["eng"], ["eng"]⟩) :=
  (process_null_iff "a.mkv" _ _ none true (Or.inl rfl)).1

/-! ### Theorems: media transfer -/

/-- C8: a transfer moves exactly the transitively reachable media files
(those of the walk, plus those inside successfully extracted archives, to
any nesting depth) directly into the destination directory — each move's
destination is the destination directory plus the bare file name, the
source subdirectory structure discarded; every reachable archive is
extracted into a destination subdirectory named after the archive with its
extension stripped; and each failed extraction contributes an error line
while the rest of the transfer proceeds (its moves are exactly those of the
remaining reachable media). -/
theorem transfer_moves_flat_extracts_and_skips (dest_dir : String)
    (entries : List TEntry) :
    ((transfer_list dest_dir entries).moves =
      (reachableMedia entries).map (fun f => (f.1 ++ "/" ++ f.2, dest_dir ++ "/" ++ f.2))) ∧
    ((transfer_list dest_dir entries).extracts =
      (reachableArchives entries).map (fun a =>
        (a.1 ++ "/" ++ a.2.1, dest_dir ++ "/" ++ (pySplitext a.2.1).1, a.2.2))) ∧
    ((transfer_list dest_dir entries).errors =
      ((reachableArchives entries).filter (fun a => !a.2.2)).map (fun a =>
        extractErrorLine (a.1 ++ "/" ++ a.2.1))) := by
  suffices h : ∀ (n : Nat) (l : List TEntry), sizeOf l ≤ n →
      ((transfer_list dest_dir l).moves =
        (reachableMedia l).map (fun f => (f.1 ++ "/" ++ f.2, dest_dir ++ "/" ++ f.2))) ∧
      ((transfer_list dest_dir l).extracts =
        (reachableArchives l).map (fun a =>
          (a.1 ++ "/" ++ a.2.1, dest_dir ++ "/" ++ (pySplitext a.2.1).1, a.2.2))) ∧
      ((transfer_list dest_dir l).errors =
        ((reachableArchives l).filter (fun a => !a.2.2)).map (fun a =>
          extractErrorLine (a.1 ++ "/" ++ a.2.1))) by
    exact h (sizeOf entries) entries le_rfl
  intro n
  induction n with
  | zero =>
    intro l hl
    cases l with
    | nil => refine ⟨?_, ?_, ?_⟩ <;> simp [transfer_list, reachableMedia, reachableArchives]
    | cons e rest =>
      exfalso
      simp only [List.cons.sizeOf_spec] at hl
      omega
  | succ n ih =>
    intro l hl
    cases l with
    | nil => refine ⟨?_, ?_, ?_⟩ <;> simp [transfer_list, reachableMedia, reachableArchives]
    | cons e rest =>
      obtain ⟨root, name, ok, contents⟩ := e
      have hsz : sizeOf contents ≤ n ∧ sizeOf rest ≤ n := by
        simp only [List.cons.sizeOf_spec, TEntry.mk.sizeOf_spec] at hl
        omega
      have ihc := ih contents hsz.1
      have ihr := ih rest hsz.2
      rw [show transfer_list dest_dir (TEntry.mk root name ok contents :: rest) =
        ⟨(transfer_entry dest_dir (.mk root name ok contents)).moves ++
           (transfer_list dest_dir rest).moves,
         (transfer_entry dest_dir (.mk root name ok contents)).extracts ++
           (transfer_list dest_dir rest).extracts,
         (transfer_entry dest_dir (.mk root name ok contents)).errors ++
           (transfer_list dest_dir rest).errors⟩ from rfl]
      rw [reachableMedia, reachableArchives]
      cases hm : is_media_file name
      · cases hr : is_rar_file name
        · refine ⟨?_, ?_, ?_⟩ <;>
            simp [transfer_entry, hm, hr, ihr.1, ihr.2.1, ihr.2.2]
        · cases ok
          · refine ⟨?_, ?_, ?_⟩ <;>
              simp [transfer_entry, extractErrorLine, hm, hr, ihr.1, ihr.2.1, ihr.2.2]
          · refine ⟨?_, ?_, ?_⟩ <;>
              simp [transfer_entry, hm, hr, ihc.1, ihc.2.1, ihc.2.2,
                ihr.1, ihr.2.1, ihr.2.2]
      · refine ⟨?_, ?_, ?_⟩ <;>
          simp [transfer_entry, hm, ihr.1, ihr.2.1, ihr.2.2]

end Mediatk
